import Mathlib

/-!
Verification development for the anti-paste-guard repository.

Shallow embedding of the core subsystems that the checked properties live in:

* `core/utils/queueing.py`   — bounded channel `safe_put` (drop-oldest policy)
* `core/hooks/events.py`     — the event variants and `to_record` serialization
* `app/analytics/metrics.py` — sliding-window metrics tracker
* `app/analytics/anomaly_engine.py` — the anomaly rules
* `app/controller/paste_classifier.py` — paste classification
* `core/crypto/aead.py`, `core/crypto/key_manager.py`,
  `core/crypto/segment_store.py`  — the segment writer with key ratchet,
  chain HMAC, and signed headers
* `tools/verify_segments.py` — the independent verifier

Modelling conventions:

* Python floats (monotonic timestamps, config windows) are embedded as `ℚ`.
* Byte strings are `List (Fin 256)`.
* The cryptographic library primitives (HKDF-SHA256, HMAC-SHA256,
  ChaCha20-Poly1305, AES-SIV, Ed25519) are external libraries, not code of
  this repository; they are abstracted as a `CryptoPrims` structure of
  deterministic functions together with the standard correctness facts the
  code relies on (AEAD round-trip, signature correctness, output lengths).
* `os.urandom` draws (nonces, salts) are inputs of the embedded functions.
-/

abbrev Byte := Fin 256

abbrev Bytes := List Byte

/-- 16 zero bytes (`b"\x00" * 16`). -/
def zero16 : Bytes := List.replicate 16 0

/-- 32 zero bytes (`b"\x00" * 32`). -/
def zero32 : Bytes := List.replicate 32 0

/-- Lowercase hex digit for a value `< 16` (as produced by `bytes.hex()`). -/
def hexDigitChar (n : Nat) : Char :=
  if n < 10 then Char.ofNat (48 + n) else Char.ofNat (87 + n)

/-- Hex encoding of a byte sequence, as a character list. -/
def hexEncL : Bytes → List Char
  | [] => []
  | b :: rest =>
      hexDigitChar (b.val / 16) :: hexDigitChar (b.val % 16) :: hexEncL rest

/-- `bytes.hex()`: lowercase hex string of a byte sequence. -/
def hexEnc (bs : Bytes) : String := String.mk (hexEncL bs)

/-- Value of one hex digit character (lowercase letters or digits). -/
def hexDigitVal (c : Char) : Nat :=
  if 97 ≤ c.toNat then c.toNat - 87 else c.toNat - 48

/-- Decode a hex character list two characters at a time. -/
def hexDecL : List Char → Bytes
  | c1 :: c2 :: rest =>
      ⟨(16 * hexDigitVal c1 + hexDigitVal c2) % 256, Nat.mod_lt _ (by norm_num)⟩
        :: hexDecL rest
  | _ => []

/-- `bytes.fromhex`: decode a hex string to bytes. -/
def hexDec (s : String) : Bytes := hexDecL s.data

theorem hexDigitVal_hexDigitChar {n : Nat} (h : n < 16) :
    hexDigitVal (hexDigitChar n) = n := by
  interval_cases n <;> decide

/-- Hex round-trip on byte lists: decoding an encoding recovers the bytes. -/
theorem hexDecL_hexEncL (bs : Bytes) : hexDecL (hexEncL bs) = bs := by
  induction bs with
  | nil => rfl
  | cons b rest ih =>
      have hdiv : b.val / 16 < 16 := by omega
      have hmod : b.val % 16 < 16 := Nat.mod_lt _ (by norm_num)
      simp only [hexEncL, hexDecL,
        hexDigitVal_hexDigitChar hdiv, hexDigitVal_hexDigitChar hmod, ih]
      congr 1
      apply Fin.ext
      show (16 * (b.val / 16) + b.val % 16) % 256 = b.val
      have : 16 * (b.val / 16) + b.val % 16 = b.val := by omega
      rw [this, Nat.mod_eq_of_lt b.isLt]

/-- Hex round-trip: `bytes.fromhex(bs.hex()) == bs`. -/
theorem hexDec_hexEnc (bs : Bytes) : hexDec (hexEnc bs) = bs := by
  simpa [hexDec, hexEnc] using hexDecL_hexEncL bs

/-- UTF-8 bytes of a string.  Every string serialized by this code base
(JSON headers with hex digests and ASCII identifiers) is ASCII, where the
UTF-8 encoding is the code-point sequence. -/
def strBytes (s : String) : Bytes :=
  s.data.map fun c => ⟨c.toNat % 256, Nat.mod_lt _ (by norm_num)⟩

/-! ## `core/utils/queueing.py` — drop-oldest bounded channel

`queue.Queue(maxsize)` is modelled as its item list (head = oldest) plus a
capacity; `put_nowait` raises `Full` exactly when `0 < maxsize ∧ maxsize ≤ len`
(Python's `Queue` with `maxsize <= 0` is unbounded).  `get_nowait` removes the
head. -/

/-- `safe_put(q, item)` (`core/utils/queueing.py`): try `put_nowait`; on
`Full`, `get_nowait()` the oldest (ignoring `Empty`) and `put_nowait` again. -/
def safe_put {α : Type} (cap : Nat) (items : List α) (x : α) : List α :=
  if 0 < cap ∧ cap ≤ items.length then
    (items.drop 1) ++ [x]
  else
    items ++ [x]

/-! ## `core/hooks/events.py` — event model and `to_record` serialization

Python dataclasses become structures; the tagged hierarchy becomes the
inductive `Event`.  `to_record` returns a Python dict with insertion order,
modelled as an association list `Rec`.  Values appearing in records are
modelled by `JVal` (strings, ints, floats-as-`ℚ`, null, the sorted `mods`
list of strings, and the anomaly `features` dict of numeric values). -/

inductive FeatVal where
  | fint (z : ℤ)
  | frat (q : ℚ)
  deriving DecidableEq

inductive JVal where
  | jnull
  | jstr (s : String)
  | jint (z : ℤ)
  | jrat (q : ℚ)
  | jstrList (xs : List String)
  | jfeats (xs : List (String × FeatVal))
  deriving DecidableEq

/-- A serialized event record: a Python dict in insertion order. -/
abbrev Rec := List (String × JVal)

def optStr : Option String → JVal
  | none => JVal.jnull
  | some s => JVal.jstr s

def optInt : Option ℤ → JVal
  | none => JVal.jnull
  | some z => JVal.jint z

def optRat : Option ℚ → JVal
  | none => JVal.jnull
  | some q => JVal.jrat q

/-- Python `a or b` on an optional string: `None` and `""` are falsy. -/
def pyOr : Option String → String → String
  | none, d => d
  | some s, d => if s = "" then d else s

inductive KeyAction where
  | down | up
  deriving DecidableEq

def KeyAction.value : KeyAction → String
  | .down => "down"
  | .up => "up"

inductive MouseAction where
  | down | up | click | scroll
  deriving DecidableEq

def MouseAction.value : MouseAction → String
  | .down => "down"
  | .up => "up"
  | .click => "click"
  | .scroll => "scroll"

inductive CommandType where
  | copy | cut | paste | paste_context | paste_primary_possible
  deriving DecidableEq

def CommandType.value : CommandType → String
  | .copy => "copy"
  | .cut => "cut"
  | .paste => "paste"
  | .paste_context => "paste_context"
  | .paste_primary_possible => "paste_primary_possible"

inductive Severity where
  | info | low | medium | high
  deriving DecidableEq

def Severity.value : Severity → String
  | .info => "info"
  | .low => "low"
  | .medium => "medium"
  | .high => "high"

/-- Fields shared by all events (`BaseEvent`). -/
structure BaseFields where
  t_utc : Option String := none
  t_mono : ℚ
  app : Option String := none
  deriving DecidableEq

structure KeyFields extends BaseFields where
  key : String := ""
  action : KeyAction := .down
  mods : List String := []
  scan_code : Option ℤ := none
  deriving DecidableEq

structure MouseFields extends BaseFields where
  button : Option String := none
  action : MouseAction := .down
  clicks : Option ℤ := none
  x : Option ℤ := none
  y : Option ℤ := none
  deriving DecidableEq

structure ClipFields extends BaseFields where
  length : ℤ := 0
  kind : String := "text"
  session_digest : Option String := none
  deriving DecidableEq

structure CmdFields extends BaseFields where
  command : CommandType := .paste
  source : String := "hotkey"
  notes : Option String := none
  deriving DecidableEq

structure FocusFields extends BaseFields where
  app_name : String := "unknown"
  pid : Option ℤ := none
  title : Option String := none
  dwell_prev_s : Option ℚ := none
  deriving DecidableEq

structure AnomalyFields extends BaseFields where
  severity : Severity := .low
  rule_id : String := ""
  rationale : String := ""
  features : List (String × FeatVal) := []
  deriving DecidableEq

/-- The closed tagged variant of events. -/
inductive Event where
  | key (f : KeyFields)
  | mouse (f : MouseFields)
  | clip (f : ClipFields)
  | cmd (f : CmdFields)
  | focus (f : FocusFields)
  | anomaly (f : AnomalyFields)
  deriving DecidableEq

/-- `EventType` name used in records.  `AnomalyEvent.__post_init__` sets
`etype = EventType.COMMAND` (the routing shortcut noted in the source). -/
def Event.etypeName : Event → String
  | .key _ => "KEY"
  | .mouse _ => "MOUSE"
  | .clip _ => "CLIPBOARD"
  | .cmd _ => "COMMAND"
  | .focus _ => "FOCUS"
  | .anomaly _ => "COMMAND"

def Event.baseFields : Event → BaseFields
  | .key f => f.toBaseFields
  | .mouse f => f.toBaseFields
  | .clip f => f.toBaseFields
  | .cmd f => f.toBaseFields
  | .focus f => f.toBaseFields
  | .anomaly f => f.toBaseFields

def Event.t_mono (ev : Event) : ℚ := ev.baseFields.t_mono

/-- `BaseEvent.to_record`: `t_utc_val = self.t_utc or utc_iso()`.  The result
of `utc_iso()` — the wall-clock instant of serialization — is the `nowIso`
argument. -/
def baseRecord (ev : Event) (nowIso : String) : Rec :=
  [("etype", JVal.jstr ev.etypeName),
   ("t_utc", JVal.jstr (pyOr ev.baseFields.t_utc nowIso)),
   ("t_mono", JVal.jrat ev.baseFields.t_mono),
   ("app", optStr ev.baseFields.app)]

/-- `to_record` of each variant: the base record updated (keys appended in
order) with the variant's fields, exactly as each subclass does. -/
def Event.to_record (ev : Event) (nowIso : String) : Rec :=
  baseRecord ev nowIso ++
    match ev with
    | .key f =>
        [("key", JVal.jstr f.key),
         ("action", JVal.jstr f.action.value),
         ("mods", JVal.jstrList (f.mods.insertionSort (· ≤ ·))),
         ("scan_code", optInt f.scan_code)]
    | .mouse f =>
        [("button", optStr f.button),
         ("action", JVal.jstr f.action.value),
         ("clicks", optInt f.clicks),
         ("x", optInt f.x),
         ("y", optInt f.y)]
    | .clip f =>
        [("action", JVal.jstr "change"),
         ("length", JVal.jint f.length),
         ("kind", JVal.jstr f.kind),
         ("session_digest", optStr f.session_digest)]
    | .cmd f =>
        [("command", JVal.jstr f.command.value),
         ("source", JVal.jstr f.source),
         ("notes", optStr f.notes)]
    | .focus f =>
        [("app_name", JVal.jstr f.app_name),
         ("pid", optInt f.pid),
         ("title", optStr f.title),
         ("dwell_prev_s", optRat f.dwell_prev_s)]
    | .anomaly f =>
        [("severity", JVal.jstr f.severity.value),
         ("rule_id", JVal.jstr f.rule_id),
         ("rationale", JVal.jstr f.rationale),
         ("features", JVal.jfeats f.features)]

/-- Projection of `t_utc` from any event variant. -/
def Event.t_utcField (ev : Event) : Option String := ev.baseFields.t_utc

/-- C5 counterexample: a clipboard event with `t_utc = None` serialized at two
different wall-clock instants produces two different records, because
`BaseEvent.to_record` materializes `utc_iso()` — the current time — into the
record.  Serialization is therefore not deterministic given field values. -/
theorem c5_to_record_not_deterministic :
    Event.to_record (Event.clip { t_mono := 0 }) "2026-01-01T00:00:00.000+00:00" ≠
    Event.to_record (Event.clip { t_mono := 0 }) "2026-01-01T00:00:01.000+00:00" := by
  decide

/-- C5 (amended): serialization of an event is deterministic given its field
values whenever the event's `t_utc` field is set to a non-empty string; with
`t_utc` falsy (`None` or `""`), `to_record` embeds the serialization-time
wall clock into the record. -/
theorem c5_to_record_deterministic (ev : Event) (s : String)
    (h1 : ev.t_utcField = some s) (h2 : s ≠ "") (n1 n2 : String) :
    ev.to_record n1 = ev.to_record n2 := by
  have hb : ∀ n, pyOr ev.baseFields.t_utc n = s := by
    intro n
    rw [show ev.baseFields.t_utc = some s from h1]
    simp [pyOr, h2]
  cases ev <;>
    simp only [Event.to_record, baseRecord, hb]

/-- Witness for C5 (amended) at a concrete event with `t_utc` set. -/
theorem c5_to_record_deterministic_witness :
    Event.to_record (Event.clip { t_utc := some "2026-01-01T00:00:00.000+00:00", t_mono := 0 })
        "2026-02-02T00:00:00.000+00:00" =
    Event.to_record (Event.clip { t_utc := some "2026-01-01T00:00:00.000+00:00", t_mono := 0 })
        "2026-03-03T00:00:00.000+00:00" :=
  c5_to_record_deterministic
    (Event.clip { t_utc := some "2026-01-01T00:00:00.000+00:00", t_mono := 0 })
    "2026-01-01T00:00:00.000+00:00" rfl (by decide) _ _

/-- C6: `safe_put` never fails the producer: if the queue has space the item
is appended at the tail; if the queue is full (at capacity `cap > 0`) exactly
the single oldest element (the head) is dropped, the new item is appended,
the size stays at capacity, and the remaining elements keep their relative
order (`items.drop 1` is a sublist of `items`). -/
theorem c6_safe_put_spec {α : Type} (cap : Nat) (items : List α) (x : α) :
    (items.length < cap ∨ cap = 0 → safe_put cap items x = items ++ [x]) ∧
    (0 < cap → items.length = cap →
      safe_put cap items x = items.drop 1 ++ [x] ∧
      (safe_put cap items x).length = items.length ∧
      (items.drop 1).Sublist items) := by
  constructor
  · intro h
    unfold safe_put
    rw [if_neg]
    omega
  · intro hcap hlen
    have hfull : 0 < cap ∧ cap ≤ items.length := ⟨hcap, le_of_eq hlen.symm⟩
    unfold safe_put
    rw [if_pos hfull]
    refine ⟨rfl, ?_, List.drop_sublist 1 items⟩
    simp
    omega

/-- Witness for C6, exercising both the spacious and the full case on a
concrete queue of capacity 2. -/
theorem c6_safe_put_spec_witness :
    safe_put 2 [3] (5 : ℕ) = [3, 5] ∧ safe_put 2 [3, 4] (5 : ℕ) = [4, 5] :=
  ⟨(c6_safe_put_spec 2 [3] 5).1 (by decide),
   ((c6_safe_put_spec 2 [3, 4] 5).2 (by decide) (by decide)).1⟩

/-! ## `app/analytics/metrics.py` — sliding-window metrics tracker

`MetricsTracker` keeps two deques (modelled as lists, head = oldest), the
last key-down time and the last event time.  `np.mean` is sum / length. -/

structure MetricsConfig where
  wpm_window_s : ℚ := 60
  cpm_window_s : ℚ := 60
  entropy_window_s : ℚ := 20

structure MetricsState where
  keys_window : List (ℚ × String) := []
  intervals : List (ℚ × ℚ) := []
  last_key_down_t : Option ℚ := none
  last_event_t : ℚ := 0

/-- `MetricsTracker._gc`: pop from the left while the head is older than the
window edge. -/
def metricsGc (cfg : MetricsConfig) (now : ℚ) (st : MetricsState) : MetricsState :=
  let cut_w := now - max cfg.wpm_window_s cfg.cpm_window_s
  let cut_e := now - cfg.entropy_window_s
  { st with
    keys_window := st.keys_window.dropWhile fun p => p.1 < cut_w
    intervals := st.intervals.dropWhile fun p => p.1 < cut_e }

/-- `MetricsTracker.observe_key`. -/
def observe_key (cfg : MetricsConfig) (st : MetricsState) (ev : KeyFields) :
    MetricsState :=
  let now := ev.t_mono
  let st1 := { st with last_event_t := now }
  let st2 :=
    if ev.action = KeyAction.down then
      let withIv :=
        match st1.last_key_down_t with
        | some t =>
            let dt := now - t
            if 0 < dt then { st1 with intervals := st1.intervals ++ [(now, dt)] }
            else st1
        | none => st1
      { withIv with
        last_key_down_t := some now
        keys_window := withIv.keys_window ++ [(now, ev.key)] }
    else st1
  metricsGc cfg now st2

structure MetricsSnapshot where
  wpm : ℚ
  cpm : ℚ
  avg_delay_ms : ℚ
  idle_s : ℚ
  deriving DecidableEq

/-- `MetricsTracker.snapshot` (the `now = time.perf_counter()` reading is the
`now` argument). -/
def snapshot (cfg : MetricsConfig) (st : MetricsState) (now : ℚ) :
    MetricsSnapshot :=
  let keys_recent := st.keys_window.filter fun p => now - p.1 ≤ cfg.cpm_window_s
  let cpm := ((keys_recent.length : ℚ) / max 1 cfg.cpm_window_s) * 60
  let wpm := cpm / 5
  let avg_delay_ms :=
    if st.intervals = [] then 0
    else ((st.intervals.map Prod.snd).sum / (st.intervals.length : ℚ)) * 1000
  { wpm := wpm, cpm := cpm, avg_delay_ms := avg_delay_ms,
    idle_s := now - st.last_event_t }

/-- C8 counterexample: with `cpm_window_s = 1/2 > 0` and one key-down inside
the window, the snapshot's `cpm` is `60` (the code divides by
`max(1.0, cpm_window_s)`), not `count / cpm_window_s × 60 = 120` as the claim
states for every positive window. -/
theorem c8_snapshot_cpm_counterexample :
    (0 : ℚ) < 1 / 2 ∧
    ((({ keys_window := [(0, "a")] } : MetricsState).keys_window.filter
        fun p => (0 : ℚ) - p.1 ≤ 1 / 2).length = 1) ∧
    (snapshot { cpm_window_s := 1 / 2 } { keys_window := [(0, "a")] } 0).cpm ≠
      (1 : ℚ) / (1 / 2) * 60 := by
  refine ⟨by norm_num, by norm_num [List.filter], ?_⟩
  have h : (snapshot { cpm_window_s := 1 / 2 } { keys_window := [(0, "a")] } 0).cpm
      = 60 := by
    norm_num [snapshot, List.filter]
  rw [h]
  norm_num

/-- C8 (amended): for every `cpm_window_s ≥ 1` (the code divides by
`max(1.0, cpm_window_s)`, so windows below one second are clamped), the
snapshot's `cpm` equals the count of key-downs within the last `cpm_window_s`
divided by `cpm_window_s` times 60, and `wpm = cpm / 5`. -/
theorem c8_snapshot_cpm_wpm (cfg : MetricsConfig) (h : 1 ≤ cfg.cpm_window_s)
    (st : MetricsState) (now : ℚ) :
    (snapshot cfg st now).cpm =
      (((st.keys_window.filter fun p => now - p.1 ≤ cfg.cpm_window_s).length : ℚ) /
        cfg.cpm_window_s) * 60 ∧
    (snapshot cfg st now).wpm = (snapshot cfg st now).cpm / 5 := by
  constructor
  · simp only [snapshot, max_eq_right h]
  · rfl

/-- Witness for C8 (amended) at the default 60-second window with one
key-down in the window. -/
theorem c8_snapshot_cpm_wpm_witness :
    (snapshot {} { keys_window := [(0, "a")] } 0).cpm =
      (((({ keys_window := [(0, "a")] } : MetricsState).keys_window.filter
          fun p => (0 : ℚ) - p.1 ≤ (60 : ℚ)).length : ℚ) / (60 : ℚ)) * 60 ∧
    (snapshot {} { keys_window := [(0, "a")] } 0).wpm =
      (snapshot {} { keys_window := [(0, "a")] } 0).cpm / 5 :=
  c8_snapshot_cpm_wpm {} (by norm_num) { keys_window := [(0, "a")] } 0

/-! ## `app/analytics/anomaly_engine.py` — anomaly rules

The engine state holds the recent key-down timestamps, the paste command
timestamps, `last_non_idle_t` and the metrics tracker.  Python's
`round(x, n)` (round-half-even) is `pyRound`; the `f"{x:.1f}"` style float
formatting is embedded by the `fmt*f` helpers (exact on `ℚ`, idealizing
binary-float artifacts).  `np.std(ddof=1)` takes a square root, a numpy
library primitive, abstracted as the `sqrtQ` argument. -/

/-- Python `round(x)`: round half to even. -/
def pyRound (x : ℚ) : ℤ :=
  let f := ⌊x⌋
  let r := x - (f : ℚ)
  if r < 1 / 2 then f
  else if 1 / 2 < r then f + 1
  else if 2 ∣ f then f else f + 1

/-- Python `round(x, 3)`. -/
def pyRound3 (x : ℚ) : ℚ := (pyRound (x * 1000) : ℚ) / 1000

/-- Python `round(x, 4)`. -/
def pyRound4 (x : ℚ) : ℚ := (pyRound (x * 10000) : ℚ) / 10000

/-- `f"{x:.0f}"`. -/
def fmt0f (x : ℚ) : String := toString (pyRound x)

/-- `f"{x:.1f}"`. -/
def fmt1f (x : ℚ) : String :=
  let n := pyRound (x * 10)
  (if n < 0 then "-" else "") ++ toString (n.natAbs / 10) ++ "." ++
    toString (n.natAbs % 10)

/-- `f"{x:.3f}"`. -/
def fmt3f (x : ℚ) : String :=
  let n := pyRound (x * 1000)
  let frac := n.natAbs % 1000
  (if n < 0 then "-" else "") ++ toString (n.natAbs / 1000) ++ "." ++
    (if frac < 10 then "00" else if frac < 100 then "0" else "") ++ toString frac

/-- `AnomalyConfig` (`app/analytics/config.py`) with its defaults. -/
structure AnomalyConfig where
  wpm_window_s : ℚ := 60
  cpm_window_s : ℚ := 60
  entropy_window_s : ℚ := 20
  keys_window_s : ℚ := 5
  idle_threshold_s : ℚ := 6
  burst_min_len : ℤ := 60
  text_insertion_min : ℤ := 40
  keys_small_max : ℕ := 5
  paste_window_s : ℚ := 15
  paste_streak_n : ℕ := 3
  min_interkey_samples : ℕ := 12
  uniform_cv_threshold : ℚ := 12 / 100

def AnomalyConfig.metricsConfig (cfg : AnomalyConfig) : MetricsConfig :=
  { wpm_window_s := cfg.wpm_window_s, cpm_window_s := cfg.cpm_window_s,
    entropy_window_s := cfg.entropy_window_s }

/-- `MetricsTracker.interkey_uniformity_cv`, with numpy's float square root
abstracted as `sqrtQ`. -/
def interkey_uniformity_cv (sqrtQ : ℚ → ℚ) (st : MetricsState) : Option ℚ :=
  if st.intervals.length < 2 then none
  else
    let dts := st.intervals.map Prod.snd
    let mean := dts.sum / (dts.length : ℚ)
    if mean ≤ 0 then none
    else
      let variance := (dts.map fun x => (x - mean) ^ 2).sum / ((dts.length : ℚ) - 1)
      some (sqrtQ variance / mean)

/-- The payload of an emitted `AnomalyEvent` (its explicit constructor
arguments; the defaulted base fields — a fresh construction-time monotonic
timestamp, no `t_utc`, no `app` — are not constrained by any claim). -/
structure AnomalyOut where
  severity : Severity
  rule_id : String
  rationale : String
  features : List (String × FeatVal)
  deriving DecidableEq

structure EngineState where
  recent_keys : List ℚ := []
  paste_times : List ℚ := []
  last_non_idle_t : ℚ := 0
  metrics : MetricsState := {}

/-- `AnomalyEngine._idle_to_burst`. -/
def idleToBurstRule (cfg : AnomalyConfig) (st : EngineState) (now : ℚ)
    (clip_len : ℤ) : List AnomalyOut :=
  let idle_s := now - st.last_non_idle_t
  if cfg.idle_threshold_s ≤ idle_s ∧ cfg.burst_min_len ≤ clip_len then
    [{ severity := .high, rule_id := "idle_to_burst",
       rationale := "idle " ++ fmt1f idle_s ++ "s → clipboard insertion " ++
         toString clip_len ++ " chars",
       features := [("idle_s", .frat (pyRound3 idle_s)),
                    ("clip_len", .fint clip_len)] }]
  else []

/-- `AnomalyEngine._text_injection_without_typing`. -/
def textInjectionRule (cfg : AnomalyConfig) (st : EngineState) (now : ℚ)
    (clip_len : ℤ) : List AnomalyOut :=
  let cutoff := now - cfg.keys_window_s
  let recent_count := (st.recent_keys.filter fun t => cutoff ≤ t).length
  if cfg.text_insertion_min ≤ clip_len ∧ recent_count ≤ cfg.keys_small_max then
    [{ severity := .high, rule_id := "text_injection",
       rationale := "clipboard " ++ toString clip_len ++ " chars with " ++
         toString recent_count ++ " key(s) in last " ++ fmt1f cfg.keys_window_s ++ "s",
       features := [("clip_len", .fint clip_len),
                    ("keys_recent", .fint recent_count),
                    ("window_s", .frat cfg.keys_window_s)] }]
  else []

/-- `AnomalyEngine._multi_paste_streaks`: prune the paste window, then emit
when the retained count reaches the streak threshold. -/
def multiPasteRule (cfg : AnomalyConfig) (st : EngineState) (now : ℚ) :
    EngineState × List AnomalyOut :=
  let cutoff := now - cfg.paste_window_s
  let pruned := st.paste_times.dropWhile fun t => t < cutoff
  let st' := { st with paste_times := pruned }
  if cfg.paste_streak_n ≤ pruned.length then
    (st', [{ severity := .medium, rule_id := "multi_paste_streak",
             rationale := toString pruned.length ++ " pastes in " ++
               fmt0f cfg.paste_window_s ++ "s",
             features := [("count", .fint pruned.length),
                          ("window_s", .frat cfg.paste_window_s)] }])
  else (st', [])

/-- `AnomalyEngine._timing_entropy_check`. -/
def timingEntropyRule (cfg : AnomalyConfig) (sqrtQ : ℚ → ℚ) (st : EngineState) :
    List AnomalyOut :=
  match interkey_uniformity_cv sqrtQ st.metrics with
  | none => []
  | some cv =>
      if cv ≤ cfg.uniform_cv_threshold ∧
          cfg.min_interkey_samples ≤ st.metrics.intervals.length then
        [{ severity := .medium, rule_id := "timing_uniformity",
           rationale := "uniform inter-key timing (cv=" ++ fmt3f cv ++ " ≤ " ++
             fmt3f cfg.uniform_cv_threshold ++ ")",
           features := [("cv", .frat (pyRound4 cv)),
                        ("samples", .fint st.metrics.intervals.length)] }]
      else []

/-- `AnomalyEngine.process`: each branch in source order; the emitted
anomalies are collected in emission order. -/
def engineProcess (cfg : AnomalyConfig) (sqrtQ : ℚ → ℚ) (st0 : EngineState)
    (ev : Event) : EngineState × List AnomalyOut :=
  let now := ev.t_mono
  let st1 :=
    match ev with
    | .key f =>
        let stA :=
          if f.action = KeyAction.down then
            { st0 with recent_keys := st0.recent_keys ++ [now],
                       last_non_idle_t := now }
          else st0
        { stA with metrics := observe_key cfg.metricsConfig stA.metrics f }
    | _ => st0
  let out2 :=
    match ev with
    | .clip f => idleToBurstRule cfg st1 now f.length ++
        textInjectionRule cfg st1 now f.length
    | _ => []
  let step3 :=
    match ev with
    | .cmd f =>
        if f.command = CommandType.paste ∨ f.command = CommandType.paste_context then
          multiPasteRule cfg
            { st1 with paste_times := st1.paste_times ++ [now] } now
        else (st1, [])
    | _ => (st1, [])
  let st3 := step3.1
  let out4 :=
    match ev with
    | .key _ => timingEntropyRule cfg sqrtQ st3
    | _ => []
  let st5 := { st3 with
    recent_keys := st3.recent_keys.dropWhile fun t => t < now - cfg.keys_window_s }
  (st5, out2 ++ step3.2 ++ out4)


/-- Every anomaly emitted by the text-injection rule carries rule id
`text_injection`. -/
theorem mem_textInjectionRule_rule_id {cfg : AnomalyConfig} {st : EngineState}
    {now : ℚ} {len : ℤ} {a : AnomalyOut}
    (h : a ∈ textInjectionRule cfg st now len) : a.rule_id = "text_injection" := by
  simp only [textInjectionRule] at h
  split at h
  · simp only [List.mem_singleton] at h
    subst h
    rfl
  · simp at h

/-- C7: with the default configuration (idle threshold 6 s, burst length 60),
processing a clipboard-change event whose `t_mono` is at least 6 s past
`last_non_idle_t` and whose `length` is at least 60 emits exactly one anomaly
with rule id `idle_to_burst`; it has severity `high` and its features bind
`clip_len` to the event's length and contain an `idle_s` entry.  Moreover,
for any configuration, `last_non_idle_t` advances exactly on key-down
events. -/
theorem c7_idle_to_burst (sqrtQ : ℚ → ℚ) :
    (∀ (st : EngineState) (f : ClipFields),
      6 ≤ f.t_mono - st.last_non_idle_t → 60 ≤ f.length →
        ((engineProcess {} sqrtQ st (.clip f)).2.filter
            fun a => a.rule_id = "idle_to_burst").length = 1 ∧
        ∀ a ∈ (engineProcess {} sqrtQ st (.clip f)).2,
          a.rule_id = "idle_to_burst" →
            a.severity = Severity.high ∧
            ("clip_len", FeatVal.fint f.length) ∈ a.features ∧
            ∃ q, ("idle_s", FeatVal.frat q) ∈ a.features) ∧
    (∀ (cfg : AnomalyConfig) (st : EngineState) (ev : Event),
      (engineProcess cfg sqrtQ st ev).1.last_non_idle_t =
        match ev with
        | .key f => if f.action = KeyAction.down then f.t_mono else st.last_non_idle_t
        | _ => st.last_non_idle_t) := by
  constructor
  · intro st f hidle hlen
    have hcond : ({} : AnomalyConfig).idle_threshold_s ≤
        f.t_mono - st.last_non_idle_t ∧ ({} : AnomalyConfig).burst_min_len ≤ f.length :=
      ⟨hidle, hlen⟩
    have hout : (engineProcess {} sqrtQ st (.clip f)).2 =
        idleToBurstRule {} st f.t_mono f.length ++
          textInjectionRule {} st f.t_mono f.length := by
      simp [engineProcess, Event.t_mono, Event.baseFields]
    have hidl : idleToBurstRule {} st f.t_mono f.length =
        [{ severity := .high, rule_id := "idle_to_burst",
           rationale := "idle " ++ fmt1f (f.t_mono - st.last_non_idle_t) ++
             "s → clipboard insertion " ++ toString f.length ++ " chars",
           features := [("idle_s", .frat (pyRound3 (f.t_mono - st.last_non_idle_t))),
                        ("clip_len", .fint f.length)] }] := by
      unfold idleToBurstRule
      rw [if_pos hcond]
    have htxt : List.filter (fun a => a.rule_id = "idle_to_burst")
        (textInjectionRule {} st f.t_mono f.length) = [] := by
      rw [List.filter_eq_nil_iff]
      intro a ha
      simp [mem_textInjectionRule_rule_id ha]
    constructor
    · rw [hout, List.filter_append, htxt, hidl]
      simp
    · intro a ha hrule
      rw [hout, List.mem_append, hidl] at ha
      rcases ha with ha | ha
      · simp only [List.mem_singleton] at ha
        subst ha
        exact ⟨rfl, by simp,
          ⟨pyRound3 (f.t_mono - st.last_non_idle_t), by simp⟩⟩
      · exact absurd hrule (by simp [mem_textInjectionRule_rule_id ha])
  · intro cfg st ev
    cases ev with
    | key f =>
        by_cases hd : f.action = KeyAction.down <;>
          simp [engineProcess, hd, Event.t_mono, Event.baseFields]
    | mouse f => rfl
    | clip f => rfl
    | cmd f =>
        simp only [engineProcess, Event.t_mono, Event.baseFields]
        by_cases hc : f.command = CommandType.paste ∨
            f.command = CommandType.paste_context
        · rw [if_pos hc]
          simp only [multiPasteRule]
          split <;> rfl
        · rw [if_neg hc]
    | focus f => rfl
    | anomaly f => rfl

/-- Witness for C7 at a concrete idle clipboard burst (idle 10 s, length
120) and a concrete key-down event. -/
theorem c7_idle_to_burst_witness :
    ((engineProcess {} id { last_non_idle_t := 0 }
        (.clip { t_mono := 10, length := 120 })).2.filter
      fun a => a.rule_id = "idle_to_burst").length = 1 ∧
    (engineProcess {} id { last_non_idle_t := 0 }
        (.key { t_mono := 3, key := "a" })).1.last_non_idle_t = 3 :=
  ⟨((c7_idle_to_burst id).1 { last_non_idle_t := 0 } { t_mono := 10, length := 120 }
      (by norm_num) (by norm_num)).1,
   (c7_idle_to_burst id).2 {} { last_non_idle_t := 0 } (.key { t_mono := 3, key := "a" })⟩

/-! ## `app/controller/paste_classifier.py` — paste classification

The classifier state holds the last right-click, clipboard-change and
context-emission times.  `process` receives the wall-monotonic clock reading
`now = self.clock()` as an argument and the event; it returns the new state
and the emitted `CommandEvent` payloads. -/

structure PasteClassifierConfig where
  context_window_sec : ℚ := 1
  context_cooldown_sec : ℚ := 3 / 10
  primary_hint : Bool := true

structure ClassifierState where
  last_right_click_mono : Option ℚ := none
  last_clip_change_mono : Option ℚ := none
  last_context_emit_mono : Option ℚ := none

/-- An emitted `CommandEvent`'s explicit constructor arguments. -/
structure CmdOut where
  command : CommandType
  source : String
  notes : Option String
  deriving DecidableEq

/-- `f"mods={sorted(m)}"` — Python's list repr is idealized by Lean's list
`toString`. -/
def notesOfMods (m : List String) : String :=
  "mods=" ++ toString (m.insertionSort (· ≤ ·))

/-- The cooldown test `not self._last_context_emit_mono or
(now - self._last_context_emit_mono) >= cooldown`; Python float truthiness
makes `0.0` falsy. -/
def cooldownOk (last : Option ℚ) (now cooldown : ℚ) : Bool :=
  match last with
  | none => true
  | some v => v = 0 ∨ cooldown ≤ now - v

/-- `PasteClassifier.process`. -/
def clsProcess (cfg : PasteClassifierConfig) (st : ClassifierState) (now : ℚ)
    (ev : Event) : ClassifierState × List CmdOut :=
  match ev with
  | .key f =>
      let emits :=
        if f.action = KeyAction.down ∧ ("ctrl" ∈ f.mods ∨ "cmd" ∈ f.mods) then
          let k := f.key.toLower
          if k = "c" then [⟨.copy, "hotkey", some (notesOfMods f.mods)⟩]
          else if k = "x" then [⟨.cut, "hotkey", some (notesOfMods f.mods)⟩]
          else if k = "v" then [⟨.paste, "hotkey", some (notesOfMods f.mods)⟩]
          else []
        else []
      (st, emits)
  | .mouse f =>
      let st1 :=
        if f.button = some "right" ∧
            (f.action = MouseAction.down ∨ f.action = MouseAction.up) then
          { st with last_right_click_mono := some f.t_mono }
        else st
      let emits :=
        if cfg.primary_hint ∧ f.button = some "middle" ∧
            f.action = MouseAction.down then
          [⟨.paste_primary_possible, "primary", some "middle-click"⟩]
        else []
      (st1, emits)
  | .clip f =>
      let st1 := { st with last_clip_change_mono := some f.t_mono }
      match st.last_right_click_mono with
      | some rc =>
          if f.t_mono - rc ≤ cfg.context_window_sec then
            if cooldownOk st.last_context_emit_mono now cfg.context_cooldown_sec then
              ({ st1 with last_context_emit_mono := some now },
               [⟨.paste_context, "context", some "right-click->clipboard change"⟩])
            else (st1, [])
          else (st1, [])
      | none => (st1, [])
  | _ => (st, [])

/-- C9 (implicit behaviour): the context-paste window test
`(ev.t_mono - rc) <= context_window_sec` has no lower bound: whenever a right
click is recorded and the clipboard change's `t_mono` minus the right click's
`t_mono` is at most the window — negative differences (right click after the
clipboard change) included — the classifier emits `paste_context` with
source `context`, subject only to the cooldown test. -/
theorem c9_context_paste_window (cfg : PasteClassifierConfig)
    (st : ClassifierState) (now : ℚ) (f : ClipFields) (rc : ℚ)
    (h1 : st.last_right_click_mono = some rc)
    (h2 : f.t_mono - rc ≤ cfg.context_window_sec)
    (h3 : cooldownOk st.last_context_emit_mono now cfg.context_cooldown_sec = true) :
    (clsProcess cfg st now (.clip f)).2 =
      [⟨.paste_context, "context", some "right-click->clipboard change"⟩] := by
  simp only [clsProcess, h1, if_pos h2, h3, if_true]

/-- Witness for C9 with a right click recorded *after* the clipboard change
(`rc = 10`, `t_mono = 19/2`, difference `-1/2 ≤ 1`). -/
theorem c9_context_paste_window_witness :
    (clsProcess {} { last_right_click_mono := some 10 } 20
        (.clip { t_mono := 19 / 2 })).2 =
      [⟨.paste_context, "context", some "right-click->clipboard change"⟩] :=
  c9_context_paste_window {} { last_right_click_mono := some 10 } 20
    { t_mono := 19 / 2 } 10 rfl (by norm_num) rfl

/-! ## Crypto primitives (external libraries)

HKDF-SHA256, HMAC-SHA256, ChaCha20-Poly1305, AES-SIV and Ed25519 come from
the `cryptography` / `pycryptodome` libraries, not from this repository.
They are abstracted as deterministic functions with the standard library
facts the code relies on: AEAD decryption inverts encryption, HMAC output
is 32 bytes, AES-SIV tags are 16 bytes, and Ed25519 verification accepts
genuine signatures.  `concretePrims` below instantiates the structure, so
the assumptions are satisfiable. -/

structure CryptoPrims where
  hkdf : Bytes → ℕ → Bytes → Bytes → Bytes
  hmacSha256 : Bytes → Bytes → Bytes
  hmac_len : ∀ k m, (hmacSha256 k m).length = 32
  chachaEnc : Bytes → Bytes → Bytes → Bytes → Bytes
  chachaDec : Bytes → Bytes → Bytes → Bytes → Option Bytes
  chacha_round : ∀ k n pt aad, chachaDec k n (chachaEnc k n pt aad) aad = some pt
  sivEnc : Bytes → Bytes → Bytes → Bytes × Bytes
  siv_tag_len : ∀ k pt aad, (sivEnc k pt aad).2.length = 16
  sivDec : Bytes → Bytes → Bytes → Bytes → Option Bytes
  siv_round : ∀ k pt aad, sivDec k (sivEnc k pt aad).1 (sivEnc k pt aad).2 aad = some pt
  edSign : Bytes → Bytes → Bytes
  edPub : Bytes → Bytes
  edVerify : Bytes → Bytes → Bytes → Bool
  ed_correct : ∀ priv msg, edVerify (edPub priv) (edSign priv msg) msg = true

/-- A concrete instantiation of the primitive assumptions (identity-style
ciphers, constant digests); used for concrete evaluation. -/
def concretePrims : CryptoPrims where
  hkdf := fun ikm _ salt info => ikm ++ salt ++ info
  hmacSha256 := fun _ _ => List.replicate 32 1
  hmac_len := fun _ _ => List.length_replicate 32 1
  chachaEnc := fun _ _ pt _ => pt
  chachaDec := fun _ _ ct _ => some ct
  chacha_round := fun _ _ _ _ => rfl
  sivEnc := fun _ pt _ => (pt, List.replicate 16 0)
  siv_tag_len := fun _ _ _ => List.length_replicate 16 0
  sivDec := fun _ ct _ _ => some ct
  siv_round := fun _ _ _ => rfl
  edSign := fun _ msg => msg
  edPub := fun priv => priv
  edVerify := fun _ sig msg => sig == msg
  ed_correct := fun _ msg => by simp

/-! ## `core/crypto/aead.py` — the two AEAD suites -/

inductive Suite where
  | chacha20p
  | aes_siv
  deriving DecidableEq

/-- `SUITE_CHACHA20P` / `SUITE_AES_SIV` identifiers. -/
def Suite.suite_id : Suite → String
  | .chacha20p => "CHACHA20P"
  | .aes_siv => "AES_SIV"

/-- Suite `encrypt`: ChaCha20-Poly1305 uses the fresh random `nonce` (an
`os.urandom(12)` draw, an input here) and returns `params = {nonce: hex}`;
AES-SIV returns ciphertext with the 16-byte tag appended and no params.
`HAVE_PYCRYPTO` is modelled as available. -/
def suiteEncrypt (c : CryptoPrims) (suite : Suite) (key pt aad nonce : Bytes) :
    Bytes × Option String :=
  match suite with
  | .chacha20p => (c.chachaEnc key nonce pt aad, some (hexEnc nonce))
  | .aes_siv => ((c.sivEnc key pt aad).1 ++ (c.sivEnc key pt aad).2, none)

/-! ## `core/crypto/key_manager.py` -/

structure SessionKeys where
  session_id : String
  session_key : Bytes
  chain_hmac_key : Bytes
  sign_private : Bytes
  sign_public_bytes : Bytes

/-- `MasterKeyManager.start_session`: the master secret, the fresh
`os.urandom(16)` session salt and the signing key are inputs. -/
def start_session (c : CryptoPrims) (master session_salt sign_priv : Bytes) :
    SessionKeys where
  session_id := hexEnc session_salt
  session_key := c.hkdf master 32 session_salt (strBytes "session-key")
  chain_hmac_key := c.hkdf master 32 session_salt (strBytes "hmac-chain")
  sign_private := sign_priv
  sign_public_bytes := c.edPub sign_priv

/-- `derive_segment_key`: HKDF over the previous key with
`salt = prev_tag or b"\x00"*16` (empty bytes are falsy). -/
def derive_segment_key (c : CryptoPrims) (prev_key prev_tag : Bytes)
    (length : ℕ) (info : Bytes) : Bytes :=
  c.hkdf prev_key length (if prev_tag = [] then zero16 else prev_tag) info

/-! ## JSON serialization used by the writer and verifier

`json.dumps(..., separators=(",", ":"))` on the specific values this code
serializes.  Number rendering of floats (`ratStr`) stands for Python's float
repr; no claim depends on the rendered digits.  The strings serialized here
(hex digests, ASCII identifiers) need no JSON escaping. -/

def ratStr (q : ℚ) : String :=
  toString q.num ++ (if q.den = 1 then "" else "/" ++ toString q.den)

def jsonStr (s : String) : String := "\"" ++ s ++ "\""

def featStr : FeatVal → String
  | .fint z => toString z
  | .frat q => ratStr q

def jsonOfJVal : JVal → String
  | .jnull => "null"
  | .jstr s => jsonStr s
  | .jint z => toString z
  | .jrat q => ratStr q
  | .jstrList xs => "[" ++ String.intercalate "," (xs.map jsonStr) ++ "]"
  | .jfeats xs =>
      "\x7b" ++
        String.intercalate ","
          (xs.map fun kv => jsonStr kv.1 ++ ":" ++ featStr kv.2) ++ "\x7d"

/-- `json.dumps(obj, separators=(",", ":"))` of one event record. -/
def jsonOfRec (r : Rec) : String :=
  "\x7b" ++
    String.intercalate ","
      (r.map fun kv => jsonStr kv.1 ++ ":" ++ jsonOfJVal kv.2) ++ "\x7d"

/-- The writer's payload bytes:
`("\n".join(json.dumps(obj) for obj in batch)).encode("utf-8")`.
UTF-8 encoding commutes with concatenation, so the encoded join equals the
join of the encoded records. -/
def rawBytes (batch : List Rec) : Bytes :=
  List.intercalate (strBytes "\n") (batch.map fun r => strBytes (jsonOfRec r))

/-- `pad_to_block` (`core/crypto/segment_store.py`): zero-pad up to the
block boundary; `rem = (-len(data)) % block` with Python's nonnegative
modulus. -/
def pad_to_block (data : Bytes) (block : ℕ) : Bytes × ℕ :=
  let rem := ((-(data.length : ℤ)) % (block : ℤ)).toNat
  if rem = 0 then (data, data.length)
  else (data ++ List.replicate rem 0, data.length + rem)

/-! ## Header and its canonical JSON forms

The persisted header blob is `json.dumps(header)` and the verifier starts
from `json.loads` of it; since the keys are distinct and the values are JSON
scalars, the parse recovers exactly the dict the writer built, so the header
travels as the structure `Header` here.  `stemAadString` is the compact
serialization of the stem dict in its fixed insertion order — built
identically by the writer (`json.dumps(header)` before params/chain/sig are
added) and by the verifier (`aad_from_header_stem`, same `stem_keys` order).
`header_bytes_for_sig` is `json.dumps(hdr_without_sig, separators=(",",":"),
sort_keys=True)` specialized to this key set, whose alphabetical order is
`chain_tag, hkdf_info, (nonce), padded_len, prev_tag, session, sign_pub,
suite, ver`; the writer signs exactly this form (its dict lacks `sig` at
signing time) and the verifier re-serializes the parsed header minus
`sig`. -/

structure Header where
  ver : ℕ
  suite : String
  session : String
  padded_len : ℕ
  hkdf_info : String
  prev_tag : String
  sign_pub : String
  nonce : Option String
  chain_tag : String
  sig : String
  deriving DecidableEq

/-- Compact JSON of the header stem in writer insertion order
(= the verifier's `stem_keys` order). -/
def stemAadString (ver : ℕ) (suite session : String) (padded_len : ℕ)
    (hkdf_info prev_tag sign_pub : String) : String :=
  "\x7b\"ver\":" ++ toString ver ++
    ",\"suite\":" ++ jsonStr suite ++
    ",\"session\":" ++ jsonStr session ++
    ",\"padded_len\":" ++ toString padded_len ++
    ",\"hkdf_info\":" ++ jsonStr hkdf_info ++
    ",\"prev_tag\":" ++ jsonStr prev_tag ++
    ",\"sign_pub\":" ++ jsonStr sign_pub ++ "\x7d"

/-- `aad_from_header_stem` (`tools/verify_segments.py`). -/
def aad_from_header_stem (h : Header) : String :=
  stemAadString h.ver h.suite h.session h.padded_len h.hkdf_info h.prev_tag
    h.sign_pub

/-- `header_bytes_for_sig`: sorted-key compact JSON of the header with `sig`
removed (the `sig` field is never read). -/
def header_bytes_for_sig (h : Header) : String :=
  "\x7b\"chain_tag\":" ++ jsonStr h.chain_tag ++
    ",\"hkdf_info\":" ++ jsonStr h.hkdf_info ++
    (match h.nonce with
     | some n => ",\"nonce\":" ++ jsonStr n
     | none => "") ++
    ",\"padded_len\":" ++ toString h.padded_len ++
    ",\"prev_tag\":" ++ jsonStr h.prev_tag ++
    ",\"session\":" ++ jsonStr h.session ++
    ",\"sign_pub\":" ++ jsonStr h.sign_pub ++
    ",\"suite\":" ++ jsonStr h.suite ++
    ",\"ver\":" ++ toString h.ver ++ "\x7d"

/-! ## `core/crypto/segment_store.py` — the segment writer -/

/-- The writer's in-memory ratchet state (`_current_key`, `_prev_tag`,
`_last_chain_tag`). -/
structure Ratchet where
  current_key : Bytes
  prev_tag : Bytes
  last_chain_tag : Bytes
  deriving DecidableEq

/-- Ratchet state at `SegmentWriter.__init__`. -/
def initialRatchet (sess : SessionKeys) : Ratchet where
  current_key := sess.session_key
  prev_tag := zero16
  last_chain_tag := zero32

/-- One persisted row (`seq` is assigned by the store). -/
structure Segment where
  ts_utc : ℕ
  header : Header
  body : Bytes
  meta_count : ℕ
  deriving DecidableEq

/-- Per-flush inputs of `_write_segment` that the environment draws: the
suite choice (`pick_suite()`), the ChaCha20-Poly1305 nonce
(`os.urandom(12)`), the timestamp (`utc_ts_ms()`) and the batch swapped out
of the buffer. -/
structure FlushIn where
  suite : Suite
  nonce : Bytes
  ts : ℕ
  batch : List Rec
  deriving DecidableEq

/-- `SegmentWriter._write_segment`, returning the persist request and the
ratchet state after the method body ran.  In the source the three ratchet
assignments (lines 179–181) precede the `self.store.insert_segment` call
(line 184) and there is no exception handling around the persist, so the
returned ratchet is the writer's in-memory state regardless of whether the
persist succeeds or raises. -/
def _write_segment (c : CryptoPrims) (sess : SessionKeys) (st : Ratchet)
    (fin : FlushIn) : Segment × Ratchet :=
  let raw := rawBytes fin.batch
  let key_len : ℕ := if fin.suite = Suite.aes_siv then 64 else 32
  let infoStr := "segment-key:" ++ fin.suite.suite_id
  let seg_key := derive_segment_key c st.current_key st.prev_tag key_len
    (strBytes infoStr)
  let pp := pad_to_block raw 256
  let aadStr := stemAadString 1 fin.suite.suite_id sess.session_id pp.2
    infoStr (hexEnc st.prev_tag) (hexEnc sess.sign_public_bytes)
  let aad := strBytes aadStr
  let encOut := suiteEncrypt c fin.suite seg_key pp.1 aad fin.nonce
  let ct := encOut.1
  let chain_tag := c.hmacSha256 sess.chain_hmac_key
    (aad ++ ct ++ st.last_chain_tag)
  let header0 : Header :=
    { ver := 1, suite := fin.suite.suite_id, session := sess.session_id,
      padded_len := pp.2, hkdf_info := infoStr,
      prev_tag := hexEnc st.prev_tag,
      sign_pub := hexEnc sess.sign_public_bytes,
      nonce := encOut.2, chain_tag := hexEnc chain_tag, sig := "" }
  let signature := c.edSign sess.sign_private
    (strBytes (header_bytes_for_sig header0))
  let header1 := { header0 with sig := hexEnc signature }
  let st' : Ratchet :=
    { current_key := seg_key, prev_tag := chain_tag.take 16,
      last_chain_tag := chain_tag }
  ({ ts_utc := fin.ts, header := header1, body := ct,
     meta_count := fin.batch.length }, st')

/-- A whole-session writer run: fold `_write_segment` over the flushes,
collecting the persisted segments in order. -/
def writerRun (c : CryptoPrims) (sess : SessionKeys) :
    Ratchet → List FlushIn → List Segment × Ratchet
  | st, [] => ([], st)
  | st, fin :: rest =>
      let step := _write_segment c sess st fin
      let restRun := writerRun c sess step.2 rest
      (step.1 :: restRun.1, restRun.2)

/-- `SegmentWriter._flush_if_needed`: returns the batch handed to
`_write_segment` (if any) together with the new `(buf, next_flush)` pair. -/
def _flush_if_needed (max_events : ℕ) (flush_sec : ℚ) (force : Bool)
    (now : ℚ) (buf : List Rec) (next_flush : ℚ) :
    Option (List Rec) × List Rec × ℚ :=
  if buf = [] then (none, buf, now + flush_sec)
  else if force = false ∧ buf.length < max_events ∧ now < next_flush then
    (none, buf, next_flush)
  else (some buf, [], now + flush_sec)

/-! ## `tools/verify_segments.py` — the verifier

The verify loop with a master key present and decryption enabled
(`no_decrypt = False`, pycryptodome available).  The per-session state dict
`session_state` is an association list; `verifyStep` is one iteration of the
loop over a row, returning the updated dict and the per-segment outcome
(`plaintext` records the `_pt` that a successful decrypt produced). -/

structure SessState where
  chain_key : Bytes
  prev_chain_tag : Bytes
  current_key : Bytes
  deriving DecidableEq

def findSess : List (String × SessState) → String → Option SessState
  | [], _ => none
  | (k, v) :: rest, sid => if k = sid then some v else findSess rest sid

def updSess : List (String × SessState) → String → SessState →
    List (String × SessState)
  | [], _, _ => []
  | (k, v) :: rest, sid, s =>
      if k = sid then (k, s) :: updSess rest sid s
      else (k, v) :: updSess rest sid s

structure SegResult where
  sig_ok : Bool
  chain_ok : Bool
  decrypt_ok : Bool
  plaintext : Option Bytes
  deriving DecidableEq

/-- The first-occurrence block of the chain check: look the session up in
`session_state`, deriving and inserting its keys when absent. -/
def sessionLookupOrCreate (c : CryptoPrims) (master : Bytes)
    (m : List (String × SessState)) (sid : String) :
    List (String × SessState) × SessState :=
  match findSess m sid with
  | some s => (m, s)
  | none =>
      let s : SessState :=
        { chain_key := c.hkdf master 32 (hexDec sid) (strBytes "hmac-chain"),
          prev_chain_tag := zero32,
          current_key := c.hkdf master 32 (hexDec sid) (strBytes "session-key") }
      (m ++ [(sid, s)], s)

def verifyStep (c : CryptoPrims) (master : Bytes)
    (m : List (String × SessState)) (seg : Segment) :
    List (String × SessState) × SegResult :=
  let h := seg.header
  -- 1) header signature
  let sig_ok := c.edVerify (hexDec h.sign_pub) (hexDec h.sig)
    (strBytes (header_bytes_for_sig h))
  -- 2) chain HMAC; create the session entry on first occurrence
  let creation := sessionLookupOrCreate c master m h.session
  let m1 := creation.1
  let sess := creation.2
  let aad := strBytes (aad_from_header_stem h)
  let expected := c.hmacSha256 sess.chain_key (aad ++ seg.body ++ sess.prev_chain_tag)
  let chain_ok := hexEnc expected = h.chain_tag
  let m2 :=
    if chain_ok then
      updSess m1 h.session { sess with prev_chain_tag := hexDec (hexEnc expected) }
    else m1
  -- 3) decryption with the per-session key ratchet
  let decOut :=
    match findSess m2 h.session with
    | none => (m2, false, none)
    | some s2 =>
        let klOpt : Option ℕ :=
          if h.suite = "CHACHA20P" then some 32
          else if h.suite = "AES_SIV" then some 64
          else none
        match klOpt with
        | none => (m2, false, none)
        | some key_len =>
            let seg_key := c.hkdf s2.current_key key_len (hexDec h.prev_tag)
              (strBytes h.hkdf_info)
            let ptOpt :=
              if h.suite = "CHACHA20P" then
                match h.nonce with
                | some nx => c.chachaDec seg_key (hexDec nx) seg.body aad
                | none => none
              else
                let ctb := seg.body.take (seg.body.length - 16)
                let tg := seg.body.drop (seg.body.length - 16)
                c.sivDec seg_key ctb tg aad
            match ptOpt with
            | some pt =>
                (updSess m2 h.session { s2 with current_key := seg_key }, true, some pt)
            | none => (m2, false, none)
  (decOut.1, { sig_ok := sig_ok, chain_ok := chain_ok,
               decrypt_ok := decOut.2.1, plaintext := decOut.2.2 })

/-- The verifier's walk over the rows in ascending `seq` order. -/
def verifyRun (c : CryptoPrims) (master : Bytes) :
    List (String × SessState) → List Segment → List SegResult
  | _, [] => []
  | m, seg :: rest =>
      let step := verifyStep c master m seg
      step.2 :: verifyRun c master step.1 rest

/-- The per-segment outcome the verifier reaches on every segment the writer
produced: all three checks pass and the decrypt recovers the padded
plaintext of the flush's batch. -/
def okResult (fin : FlushIn) : SegResult where
  sig_ok := true
  chain_ok := true
  decrypt_ok := true
  plaintext := some (pad_to_block (rawBytes fin.batch) 256).1

/-! ## Supporting lemmas for the writer/verifier correspondence -/

theorem findSess_updSess (m : List (String × SessState)) (sid : String)
    (s : SessState) :
    findSess (updSess m sid s) sid = (findSess m sid).map fun _ => s := by
  induction m with
  | nil => rfl
  | cons kv rest ih =>
      obtain ⟨k, v⟩ := kv
      by_cases hk : k = sid <;> simp [updSess, findSess, hk, ih]

theorem findSess_append_self {m : List (String × SessState)} {sid : String}
    (h : findSess m sid = none) (s : SessState) :
    findSess (m ++ [(sid, s)]) sid = some s := by
  induction m with
  | nil => simp [findSess]
  | cons kv rest ih =>
      obtain ⟨k, v⟩ := kv
      by_cases hk : k = sid
      · simp [findSess, hk] at h
      · simp only [findSess, hk, if_neg, List.cons_append] at h ⊢
        simp [findSess, hk]
        exact ih h

theorem pad_to_block_snd_length (data : Bytes) :
    (pad_to_block data 256).2 = (pad_to_block data 256).1.length := by
  simp only [pad_to_block]
  split <;> simp

theorem pad_to_block_take (data : Bytes) :
    (pad_to_block data 256).1.take data.length = data := by
  simp only [pad_to_block]
  split <;> simp [List.take_left]

theorem pad_to_block_drop (data : Bytes) :
    (pad_to_block data 256).1.drop data.length =
      List.replicate ((pad_to_block data 256).1.length - data.length) 0 := by
  simp only [pad_to_block]
  split <;> simp [List.drop_left]

theorem pad_to_block_aligned (data : Bytes) (h : data ≠ []) :
    (pad_to_block data 256).2 % 256 = 0 ∧ 0 < (pad_to_block data 256).2 := by
  have hlen : 0 < data.length := List.length_pos.mpr h
  simp only [pad_to_block]
  set r : ℤ := (-(data.length : ℤ)) % (256 : ℤ) with hr
  have hr0 : 0 ≤ r := Int.emod_nonneg _ (by norm_num)
  have htn : (r.toNat : ℤ) = r := Int.toNat_of_nonneg hr0
  have hrmod : ((data.length : ℤ) + r) % 256 = 0 := by
    rw [hr]
    omega
  split
  · constructor <;> omega
  · simp only [List.length_append, List.length_replicate]
    constructor <;> omega

theorem strBytes_jsonOfRec_ne_nil (r : Rec) : strBytes (jsonOfRec r) ≠ [] := by
  intro hc
  have hlen := congrArg List.length hc
  simp only [strBytes, List.length_map, List.length_nil] at hlen
  have : (jsonOfRec r).data = [] := List.eq_nil_of_length_eq_zero hlen
  rw [jsonOfRec] at this
  simp [String.data_append] at this

theorem intercalate_cons_head (sep x : Bytes) (xs : List Bytes) :
    ∃ t, List.intercalate sep (x :: xs) = x ++ t := by
  cases xs with
  | nil => exact ⟨[], by simp [List.intercalate, List.intersperse]⟩
  | cons y ys =>
      refine ⟨sep ++ (List.intersperse sep (y :: ys)).flatten, ?_⟩
      simp [List.intercalate, List.intersperse]

theorem rawBytes_ne_nil {batch : List Rec} (h : batch ≠ []) :
    rawBytes batch ≠ [] := by
  obtain ⟨r, rest, rfl⟩ := List.exists_cons_of_ne_nil h
  unfold rawBytes
  simp only [List.map_cons]
  obtain ⟨t, ht⟩ := intercalate_cons_head (strBytes "\n") (strBytes (jsonOfRec r))
    (rest.map fun rr => strBytes (jsonOfRec rr))
  rw [ht]
  intro hc
  rcases List.append_eq_nil.mp hc with ⟨h1, _⟩
  exact strBytes_jsonOfRec_ne_nil r h1

theorem writerRun_take (c : CryptoPrims) (sess : SessionKeys) :
    ∀ (fins : List FlushIn) (st : Ratchet) (k : ℕ),
      ((writerRun c sess st fins).1).take k =
        (writerRun c sess st (fins.take k)).1 := by
  intro fins
  induction fins with
  | nil => intro st k; simp [writerRun]
  | cons fin rest ih =>
      intro st k
      cases k with
      | zero => simp [writerRun]
      | succ k' => simp [writerRun, ih]

theorem write_segment_prev_tag_ne_nil (c : CryptoPrims) (sess : SessionKeys)
    (st : Ratchet) (fin : FlushIn) :
    (_write_segment c sess st fin).2.prev_tag ≠ [] := by
  simp only [_write_segment]
  intro hc
  have hlen := congrArg List.length hc
  simp only [List.length_take, c.hmac_len, List.length_nil] at hlen
  omega

/-- Relation between the verifier's per-session state and the writer's
ratchet: either the session entry exists and mirrors the ratchet, or it does
not exist yet and the ratchet is still at its session-start values. -/
def sessInv (sess : SessionKeys) (m : List (String × SessState))
    (st : Ratchet) : Prop :=
  findSess m sess.session_id =
      some { chain_key := sess.chain_hmac_key,
             prev_chain_tag := st.last_chain_tag,
             current_key := st.current_key } ∨
    (findSess m sess.session_id = none ∧ st.last_chain_tag = zero32 ∧
      st.current_key = sess.session_key)

theorem sessionLookupOrCreate_spec (c : CryptoPrims) (master : Bytes)
    (sess : SessionKeys)
    (hck : c.hkdf master 32 (hexDec sess.session_id) (strBytes "hmac-chain") =
      sess.chain_hmac_key)
    (hsk : c.hkdf master 32 (hexDec sess.session_id) (strBytes "session-key") =
      sess.session_key)
    (m : List (String × SessState)) (st : Ratchet)
    (hm : sessInv sess m st) :
    (sessionLookupOrCreate c master m sess.session_id).2 =
      { chain_key := sess.chain_hmac_key,
        prev_chain_tag := st.last_chain_tag,
        current_key := st.current_key } ∧
    findSess (sessionLookupOrCreate c master m sess.session_id).1
        sess.session_id =
      some { chain_key := sess.chain_hmac_key,
             prev_chain_tag := st.last_chain_tag,
             current_key := st.current_key } := by
  rcases hm with hfound | ⟨hnone, hlast, hcur⟩
  · unfold sessionLookupOrCreate
    rw [hfound]
    exact ⟨rfl, hfound⟩
  · unfold sessionLookupOrCreate
    rw [hnone]
    simp only
    rw [hck, hsk, ← hlast, ← hcur]
    exact ⟨rfl, findSess_append_self hnone _⟩

theorem verifyStep_write_segment (c : CryptoPrims) (master : Bytes)
    (sess : SessionKeys)
    (hpub : sess.sign_public_bytes = c.edPub sess.sign_private)
    (hck : c.hkdf master 32 (hexDec sess.session_id) (strBytes "hmac-chain") =
      sess.chain_hmac_key)
    (hsk : c.hkdf master 32 (hexDec sess.session_id) (strBytes "session-key") =
      sess.session_key)
    (st : Ratchet) (fin : FlushIn) (m : List (String × SessState))
    (hpt : st.prev_tag ≠ [])
    (hm : sessInv sess m st) :
    (verifyStep c master m (_write_segment c sess st fin).1).2 = okResult fin ∧
    sessInv sess (verifyStep c master m (_write_segment c sess st fin).1).1
      (_write_segment c sess st fin).2 := by
  obtain ⟨hc2, hc1⟩ := sessionLookupOrCreate_spec c master sess hck hsk m st hm
  obtain ⟨suite, nonce, ts, batch⟩ := fin
  cases suite
  case chacha20p =>
    refine ⟨?_, Or.inl ?_⟩ <;>
      simp [verifyStep, _write_segment, derive_segment_key, okResult, sessInv,
        suiteEncrypt, Suite.suite_id, aad_from_header_stem,
        header_bytes_for_sig, hexDec_hexEnc,
        hc2, hc1, findSess_updSess, hpub, c.ed_correct, c.chacha_round, hpt]
  case aes_siv =>
    refine ⟨?_, Or.inl ?_⟩ <;>
      simp [verifyStep, _write_segment, derive_segment_key, okResult, sessInv,
        suiteEncrypt, Suite.suite_id, aad_from_header_stem,
        header_bytes_for_sig, hexDec_hexEnc,
        hc2, hc1, findSess_updSess, hpub, c.ed_correct, c.siv_round,
        c.siv_tag_len, List.take_left, List.drop_left, hpt]

/-- The whole-run correspondence: starting from a state satisfying the
session invariant, the verifier reaches the all-checks-pass outcome on every
segment the writer produces, in order. -/
theorem verifyRun_writerRun (c : CryptoPrims) (master : Bytes)
    (sess : SessionKeys)
    (hpub : sess.sign_public_bytes = c.edPub sess.sign_private)
    (hck : c.hkdf master 32 (hexDec sess.session_id) (strBytes "hmac-chain") =
      sess.chain_hmac_key)
    (hsk : c.hkdf master 32 (hexDec sess.session_id) (strBytes "session-key") =
      sess.session_key) :
    ∀ (fins : List FlushIn) (st : Ratchet) (m : List (String × SessState)),
      st.prev_tag ≠ [] → sessInv sess m st →
      verifyRun c master m (writerRun c sess st fins).1 = fins.map okResult := by
  intro fins
  induction fins with
  | nil => intro st m _ _; rfl
  | cons fin rest ih =>
      intro st m hpt hm
      obtain ⟨h2, hInv⟩ :=
        verifyStep_write_segment c master sess hpub hck hsk st fin m hpt hm
      simp only [writerRun, verifyRun, List.map_cons]
      rw [h2, ih (_write_segment c sess st fin).2 _
        (write_segment_prev_tag_ne_nil c sess st fin) hInv]

theorem start_session_chain_key (c : CryptoPrims) (master salt priv : Bytes) :
    c.hkdf master 32 (hexDec (start_session c master salt priv).session_id)
        (strBytes "hmac-chain") =
      (start_session c master salt priv).chain_hmac_key := by
  simp [start_session, hexDec_hexEnc]

theorem start_session_session_key (c : CryptoPrims) (master salt priv : Bytes) :
    c.hkdf master 32 (hexDec (start_session c master salt priv).session_id)
        (strBytes "session-key") =
      (start_session c master salt priv).session_key := by
  simp [start_session, hexDec_hexEnc]

theorem initialRatchet_inv (sess : SessionKeys) :
    sessInv sess [] (initialRatchet sess) :=
  Or.inr ⟨rfl, rfl, rfl⟩

theorem initialRatchet_prev_tag_ne_nil (sess : SessionKeys) :
    (initialRatchet sess).prev_tag ≠ [] := by
  simp [initialRatchet, zero16]

/-- C2: for every prefix of the segment sequence one session's writer
persists, the verifier's chain-HMAC recomputation (HMAC-SHA256 with the
session chain key over stem AAD ∥ body ∥ previous chain tag, starting from
32 zero bytes) matches the `chain_tag` recorded in each header, in order:
every prefix verifies with `chain_ok` on each segment. -/
theorem c2_chain_prefix_verifies (c : CryptoPrims) (master salt priv : Bytes)
    (fins : List FlushIn) (k : ℕ) :
    ∀ r ∈ verifyRun c master []
        (((writerRun c (start_session c master salt priv)
            (initialRatchet (start_session c master salt priv)) fins).1).take k),
      r.chain_ok = true := by
  intro r hr
  rw [writerRun_take] at hr
  rw [verifyRun_writerRun c master (start_session c master salt priv) rfl
    (start_session_chain_key c master salt priv)
    (start_session_session_key c master salt priv)
    (fins.take k) _ _ (initialRatchet_prev_tag_ne_nil _) (initialRatchet_inv _)] at hr
  obtain ⟨fin, _, rfl⟩ := List.mem_map.mp hr
  rfl

set_option maxRecDepth 40000 in
/-- Witness for C2 on a concrete one-segment run with the concrete
primitives. -/
theorem c2_chain_prefix_verifies_witness :
    (okResult { suite := Suite.chacha20p, nonce := [], ts := 0, batch := [] }).chain_ok
      = true :=
  c2_chain_prefix_verifies concretePrims [] [] []
    [{ suite := Suite.chacha20p, nonce := [], ts := 0, batch := [] }] 1 _
    (by decide)

/-- C4: for every segment the writer persists, Ed25519 verification with the
`sign_pub` embedded in the header, over the canonical sorted-key compact
JSON of the header with `sig` removed, accepts the header's `sig`: the
verifier reports `sig_ok` on every segment of the run. -/
theorem c4_signatures_verify (c : CryptoPrims) (master salt priv : Bytes)
    (fins : List FlushIn) :
    ∀ r ∈ verifyRun c master []
        ((writerRun c (start_session c master salt priv)
          (initialRatchet (start_session c master salt priv)) fins).1),
      r.sig_ok = true := by
  intro r hr
  rw [verifyRun_writerRun c master (start_session c master salt priv) rfl
    (start_session_chain_key c master salt priv)
    (start_session_session_key c master salt priv)
    fins _ _ (initialRatchet_prev_tag_ne_nil _) (initialRatchet_inv _)] at hr
  obtain ⟨fin, _, rfl⟩ := List.mem_map.mp hr
  rfl

set_option maxRecDepth 40000 in
/-- Witness for C4 on a concrete one-segment run (AES-SIV suite). -/
theorem c4_signatures_verify_witness :
    (okResult { suite := Suite.aes_siv, nonce := [], ts := 0, batch := [] }).sig_ok
      = true :=
  c4_signatures_verify concretePrims [] [] []
    [{ suite := Suite.aes_siv, nonce := [], ts := 0, batch := [] }] _
    (by decide)

/-- C3: for every batch written as a segment with suite S, the verifier —
re-deriving the per-segment key from the master secret with the same HKDF
session and ratchet derivations (salt = header `prev_tag`, info = header
`hkdf_info`) and running suite S's AEAD decryption on the body with the stem
AAD — succeeds on every segment of the run, and the recovered plaintext is
the newline-joined JSON records of the batch followed only by zero padding
up to the 256-byte boundary. -/
theorem c3_decrypt_roundtrip (c : CryptoPrims) (master salt priv : Bytes)
    (fins : List FlushIn) :
    verifyRun c master []
        ((writerRun c (start_session c master salt priv)
          (initialRatchet (start_session c master salt priv)) fins).1) =
      fins.map okResult ∧
    ∀ fin : FlushIn, fin.batch ≠ [] →
      (okResult fin).decrypt_ok = true ∧
      (okResult fin).plaintext = some (pad_to_block (rawBytes fin.batch) 256).1 ∧
      (pad_to_block (rawBytes fin.batch) 256).1.take (rawBytes fin.batch).length
        = rawBytes fin.batch ∧
      (pad_to_block (rawBytes fin.batch) 256).1.drop (rawBytes fin.batch).length
        = List.replicate
            ((pad_to_block (rawBytes fin.batch) 256).1.length -
              (rawBytes fin.batch).length) 0 ∧
      (pad_to_block (rawBytes fin.batch) 256).1.length % 256 = 0 := by
  constructor
  · exact verifyRun_writerRun c master (start_session c master salt priv) rfl
      (start_session_chain_key c master salt priv)
      (start_session_session_key c master salt priv)
      fins _ _ (initialRatchet_prev_tag_ne_nil _) (initialRatchet_inv _)
  · intro fin hb
    have hraw := rawBytes_ne_nil hb
    have hal := pad_to_block_aligned (rawBytes fin.batch) hraw
    refine ⟨rfl, rfl, pad_to_block_take _, pad_to_block_drop _, ?_⟩
    rw [← pad_to_block_snd_length]
    exact hal.1

set_option maxRecDepth 40000 in
/-- Witness for C3 at a concrete AES-SIV flush of one (empty) record. -/
theorem c3_decrypt_roundtrip_witness :
    (okResult { suite := Suite.aes_siv, nonce := [], ts := 0, batch := [[]] }).decrypt_ok = true ∧
    (okResult { suite := Suite.aes_siv, nonce := [], ts := 0, batch := [[]] }).plaintext =
      some (pad_to_block (rawBytes [[]]) 256).1 ∧
    (pad_to_block (rawBytes [[]]) 256).1.take (rawBytes [[]]).length
      = rawBytes [[]] ∧
    (pad_to_block (rawBytes [[]]) 256).1.drop (rawBytes [[]]).length
      = List.replicate
          ((pad_to_block (rawBytes [[]]) 256).1.length - (rawBytes [[]]).length) 0 ∧
    (pad_to_block (rawBytes [[]]) 256).1.length % 256 = 0 :=
  (c3_decrypt_roundtrip concretePrims [] [] [] []).2
    { suite := Suite.aes_siv, nonce := [], ts := 0, batch := [[]] } (by decide)

set_option maxRecDepth 40000 in
/-- C1: in `SegmentWriter._write_segment` the ratchet assignments
(`_current_key`, `_prev_tag`, `_last_chain_tag`, source lines 179–181)
execute before `self.store.insert_segment` (line 184) and no exception
handling surrounds the persist, so after a flush whose persist raises, the
writer's in-memory ratchet holds the advanced values.  Evaluating the flush
at a concrete input: the post-flush ratchet — which is the state retained
when the persist fails — differs from the pre-flush state, contradicting the
claim that a persist failure leaves the ratchet unchanged. -/
theorem c1_ratchet_advances_despite_persist_failure :
    (_write_segment concretePrims (start_session concretePrims [] [] [])
        (initialRatchet (start_session concretePrims [] [] []))
        { suite := Suite.chacha20p, nonce := [], ts := 0, batch := [] }).2 ≠
      initialRatchet (start_session concretePrims [] [] []) := by
  decide

/-- C10: a flush with an empty buffer persists nothing (even when forced),
and every batch a flush does hand to `_write_segment` is nonempty, so every
persisted segment has a meta count of at least 1, a nonempty serialized
plaintext, and a header `padded_len` that is a positive multiple of 256. -/
theorem c10_no_empty_segments (max_events : ℕ) (flush_sec : ℚ) (force : Bool)
    (now : ℚ) (buf : List Rec) (next_flush : ℚ) :
    (buf = [] →
      (_flush_if_needed max_events flush_sec force now buf next_flush).1 = none) ∧
    (∀ batch,
      (_flush_if_needed max_events flush_sec force now buf next_flush).1 =
          some batch →
        1 ≤ batch.length ∧
        rawBytes batch ≠ [] ∧
        ∀ (c : CryptoPrims) (sess : SessionKeys) (st : Ratchet) (fin : FlushIn),
          fin.batch = batch →
            1 ≤ (_write_segment c sess st fin).1.meta_count ∧
            (_write_segment c sess st fin).1.header.padded_len % 256 = 0 ∧
            0 < (_write_segment c sess st fin).1.header.padded_len) := by
  constructor
  · intro hb
    simp [_flush_if_needed, hb]
  · intro batch hsome
    have hrs : batch = buf ∧ buf ≠ [] := by
      unfold _flush_if_needed at hsome
      split at hsome
      · exact absurd hsome (by simp)
      · split at hsome
        · exact absurd hsome (by simp)
        · rename_i hb _
          exact ⟨(Option.some.injEq _ _ ▸ hsome).symm, hb⟩
    obtain ⟨rfl, hbuf⟩ := hrs
    have hraw := rawBytes_ne_nil hbuf
    refine ⟨?_, hraw, ?_⟩
    · have := List.length_pos.mpr hbuf
      omega
    · intro c sess st fin hfb
      have hmeta : (_write_segment c sess st fin).1.meta_count = fin.batch.length :=
        rfl
      have hpl : (_write_segment c sess st fin).1.header.padded_len =
          (pad_to_block (rawBytes fin.batch) 256).2 := rfl
      have hal := pad_to_block_aligned (rawBytes fin.batch) (hfb ▸ hraw)
      refine ⟨?_, ?_, ?_⟩
      · rw [hmeta, hfb]
        have := List.length_pos.mpr hbuf
        omega
      · rw [hpl]
        exact hal.1
      · rw [hpl]
        exact hal.2

/-- Witness for C10: the empty-buffer case returns nothing; a forced flush
of one record yields a 256-byte-aligned positive `padded_len`. -/
theorem c10_no_empty_segments_witness :
    (_flush_if_needed 500 60 true 0 ([] : List Rec) 0).1 = none ∧
    (_write_segment concretePrims (start_session concretePrims [] [] [])
        (initialRatchet (start_session concretePrims [] [] []))
        { suite := Suite.chacha20p, nonce := [], ts := 0, batch := [[]] }).1.header.padded_len % 256 = 0 :=
  ⟨(c10_no_empty_segments 500 60 true 0 [] 0).1 rfl,
   (((c10_no_empty_segments 500 60 true 0 [[]] 0).2 [[]] (by decide)).2.2
      concretePrims (start_session concretePrims [] [] [])
      (initialRatchet (start_session concretePrims [] [] []))
      { suite := Suite.chacha20p, nonce := [], ts := 0, batch := [[]] }
      rfl).2.1⟩
